import Mathlib

/-
Shallow embedding of the argocd-proxy credential-and-caching core:
the generic TTL cache (package cache, src/unnamed/part_000) and the token
lifecycle coordinator (package auth, src/unnamed/part_002).

Time is modelled as `Int` (seconds); each source call to time.Now() becomes
an explicit `now` argument.  Mutex-guarded critical sections act atomically
on the state.  The Go zero value of a type parameter T is modelled by
`Inhabited.default`.
-/

/-- The generic thread-safe in-memory cache with TTL expiration
(cache.Cache[T]).  The mutex is not modelled; each operation acts
atomically on this state. -/
structure Cache (T : Type) where
  value : T
  cachedAt : Int
  ttl : Int
  populated : Bool
deriving Repr, DecidableEq

/-- cache.New: creates a new Cache with the given TTL; the remaining fields
take Go zero values. -/
def Cache.New (T : Type) [Inhabited T] (ttl : Int) : Cache T :=
  { value := default, cachedAt := 0, ttl := ttl, populated := false }

/-- cache.Cache.Get: returns the cached value and true if it exists and has
not expired, the zero value and false otherwise.  `time.Since(c.cachedAt)`
is `now - c.cachedAt`. -/
def Cache.Get {T : Type} [Inhabited T] (c : Cache T) (now : Int) : T × Bool :=
  if c.ttl ≤ 0 then (default, false)
  else if !c.populated then (default, false)
  else if now - c.cachedAt > c.ttl then (default, false)
  else (c.value, true)

/-- cache.Cache.Set: stores a value with the current timestamp; no-op when
ttl ≤ 0. -/
def Cache.Set {T : Type} (c : Cache T) (now : Int) (value : T) : Cache T :=
  if c.ttl ≤ 0 then c
  else { c with value := value, cachedAt := now, populated := true }

/-- cache.Cache.Invalidate: clears the cached value to the zero value and
marks the cache unpopulated. -/
def Cache.Invalidate {T : Type} [Inhabited T] (c : Cache T) : Cache T :=
  { c with value := default, populated := false }

/-- C2: Get returns the stored value with hit = true exactly when the cache
is populated, ttl > 0 and the age now - cachedAt is at most ttl; in every
other case it returns the zero value of T and false, so a value older than
ttl is never returned. -/
theorem cache_get_characterization {T : Type} [Inhabited T] (c : Cache T) (now : Int) :
    Cache.Get c now =
      (if c.populated = true ∧ 0 < c.ttl ∧ now - c.cachedAt ≤ c.ttl
       then (c.value, true) else ((default : T), false)) := by
  unfold Cache.Get
  rcases hp : c.populated <;> split_ifs with h1 h2 h3 h4 <;>
    simp_all <;> omega

/-- C8: Invalidate clears the stored value to the zero value of T and marks
the cache unpopulated, for every prior state and TTL configuration; it is
idempotent, and every Get after an Invalidate (and before any further Set)
is a miss. -/
theorem cache_invalidate_spec {T : Type} [Inhabited T] (c : Cache T) (now : Int) :
    (Cache.Invalidate c).value = default ∧
    (Cache.Invalidate c).populated = false ∧
    Cache.Invalidate (Cache.Invalidate c) = Cache.Invalidate c ∧
    Cache.Get (Cache.Invalidate c) now = ((default : T), false) := by
  refine ⟨rfl, rfl, rfl, ?_⟩
  unfold Cache.Get Cache.Invalidate
  split_ifs <;> simp_all

/-- C9: after Set(a) then Set(b), a hit from Get always yields b, never a;
and with caching enabled (ttl > 0) a Get within ttl of the second Set is a
hit returning b — Set overwrites the previous value unconditionally. -/
theorem cache_set_overwrite {T : Type} [Inhabited T] (c : Cache T)
    (t1 t2 t3 : Int) (a b : T) :
    ((Cache.Get (Cache.Set (Cache.Set c t1 a) t2 b) t3).2 = true →
      (Cache.Get (Cache.Set (Cache.Set c t1 a) t2 b) t3).1 = b) ∧
    (0 < c.ttl → t3 - t2 ≤ c.ttl →
      Cache.Get (Cache.Set (Cache.Set c t1 a) t2 b) t3 = (b, true)) := by
  unfold Cache.Set Cache.Get
  split_ifs <;> simp_all <;> omega

/-- Closed witness for C9 at a concrete cache: ttl 10, Set 3 then Set 7,
Get one tick later returns 7 with a hit. -/
theorem cache_set_overwrite_witness :
    Cache.Get (Cache.Set (Cache.Set (Cache.New Int 10) 0 3) 1 7) 2 = (7, true) :=
  (cache_set_overwrite (Cache.New Int 10) 0 1 2 3 7).2 (by decide) (by decide)

/-
Token lifecycle coordinator (package auth).  The refreshMutex serializes
every public operation, and refreshToken runs entirely inside the critical
section of the GetValidToken that invoked it, with its deferred handler
clearing refreshingToken before the mutex is released.  Operations are
therefore embedded as atomic state transformers; the busy-wait polling
loop of GetValidToken is modelled separately over observation traces
(pollWaitIterations below).
-/

/-- Safety margin before token expiry (5 minutes, in seconds). -/
def fiveMinutes : Int := 5 * 60

/-- Assumed token lifetime used when caching a fresh token (23 hours, in
seconds). -/
def twentyThreeHours : Int := 23 * 60 * 60

/-- Cached token information (auth.TokenCache). -/
structure TokenCache where
  Token : String
  ExpiresAt : Int
  IssuedAt : Int
deriving Repr, DecidableEq

/-- The token coordinator state (auth.AuthService).  Only the mutable
fields matter to the claims: the nil-able tokenCache pointer and the
refreshingToken flag.  config and httpClient are subsumed by the RefreshEnv
input of a refresh attempt; refreshMutex by the operations acting
atomically. -/
structure AuthService where
  tokenCache : Option TokenCache
  refreshingToken : Bool
deriving Repr, DecidableEq

/-- auth.NewAuthService: a fresh service starts with a nil tokenCache and
the refreshingToken flag unset. -/
def NewAuthService : AuthService :=
  { tokenCache := none, refreshingToken := false }

/-- types.ArgocdSessionResponse, restricted to the field the coordinator
reads. -/
structure ArgocdSessionResponse where
  Token : String
deriving Repr, DecidableEq

/-- The observable part of an HTTP response to the session request: its
status code and the result of decoding its body (none = decode error). -/
structure HttpResponse where
  StatusCode : Nat
  decodeBody : Option ArgocdSessionResponse
deriving Repr, DecidableEq

/-- Outcome of httpClient.Do: a transport error, or a response. -/
inductive DoResult where
  | transportError : DoResult
  | response : HttpResponse → DoResult
deriving Repr, DecidableEq

/-- The environment of one refresh attempt: whether json.Marshal and
http.NewRequestWithContext succeed, and what httpClient.Do yields.  A
cancelled context surfaces here as a request-creation or transport
error. -/
structure RefreshEnv where
  marshalOk : Bool
  newRequestOk : Bool
  doResult : DoResult
deriving Repr, DecidableEq

/-- The distinct failure exits of auth.AuthService.refreshToken. -/
inductive RefreshError where
  | marshalFailed : RefreshError
  | createRequestFailed : RefreshError
  | executeRequestFailed : RefreshError
  | badStatus : Nat → RefreshError
  | decodeFailed : RefreshError
  | emptyToken : RefreshError
deriving Repr, DecidableEq

/-- Whether a refresh environment drives refreshToken to its success
exit. -/
def RefreshEnv.succeeds (env : RefreshEnv) : Bool :=
  env.marshalOk && env.newRequestOk &&
    (match env.doResult with
     | .transportError => false
     | .response r =>
       r.StatusCode == 200 &&
         (match r.decodeBody with
          | none => false
          | some sr => sr.Token != ""))

/-- auth.AuthService.refreshToken: obtains a new token.  Returns the
result, the new state, and the number of authenticator (network)
invocations made — httpClient.Do runs exactly when marshalling and request
creation succeed.  refreshingToken is set on entry and cleared by a
deferred handler on every exit path, so every returned state carries
refreshingToken = false. -/
def AuthService.refreshToken (a : AuthService) (now : Int) (env : RefreshEnv) :
    Except RefreshError String × AuthService × Nat :=
  let a1 : AuthService := { a with refreshingToken := true }
  if !env.marshalOk then
    (.error .marshalFailed, { a1 with refreshingToken := false }, 0)
  else if !env.newRequestOk then
    (.error .createRequestFailed, { a1 with refreshingToken := false }, 0)
  else
    match env.doResult with
    | .transportError =>
      (.error .executeRequestFailed, { a1 with refreshingToken := false }, 1)
    | .response r =>
      if r.StatusCode ≠ 200 then
        (.error (.badStatus r.StatusCode), { a1 with refreshingToken := false }, 1)
      else
        match r.decodeBody with
        | none => (.error .decodeFailed, { a1 with refreshingToken := false }, 1)
        | some sr =>
          if sr.Token = "" then
            (.error .emptyToken, { a1 with refreshingToken := false }, 1)
          else
            (.ok sr.Token,
             { a1 with
                 tokenCache := some
                   { Token := sr.Token,
                     ExpiresAt := now + twentyThreeHours,
                     IssuedAt := now },
                 refreshingToken := false },
             1)

/-- auth.AuthService.isTokenValid: the token is usable only while
now < ExpiresAt - 5 minutes (`time.Now().Before(ExpiresAt.Add(-5min))`);
a nil tokenCache is never valid. -/
def AuthService.isTokenValid (a : AuthService) (now : Int) : Bool :=
  match a.tokenCache with
  | none => false
  | some tc => now < tc.ExpiresAt - fiveMinutes

/-- The token string read from a non-nil tokenCache
(`a.tokenCache.Token`); only evaluated under the isSome guard, mirroring
the nil check in the source. -/
def AuthService.cachedToken (a : AuthService) : String :=
  match a.tokenCache with
  | none => ""
  | some tc => tc.Token

/-- auth.AuthService.GetValidToken in the serialized semantics forced by
refreshMutex: fast path when the cached token is valid, otherwise the
in-flight branch or a direct refresh.  refreshingToken is true only while
the mutex is held (refreshToken clears it before GetValidToken returns),
so in the serialized semantics the in-flight branch finds the store
unchanged after the wait, re-checks validity, and falls through to
refreshToken — the polling loop itself is modelled by pollWaitIterations.
Returns the result, the new state, and the authenticator invocation
count. -/
def AuthService.GetValidToken (a : AuthService) (now : Int) (env : RefreshEnv) :
    Except RefreshError String × AuthService × Nat :=
  if a.tokenCache.isSome && a.isTokenValid now then
    (.ok a.cachedToken, a, 0)
  else if a.refreshingToken then
    if a.tokenCache.isSome && a.isTokenValid now then
      (.ok a.cachedToken, a, 0)
    else
      a.refreshToken now env
  else
    a.refreshToken now env

/-- The status snapshot built by auth.AuthService.GetTokenStatus; fields
reported only for a non-nil tokenCache are Options. -/
structure TokenStatus where
  hasToken : Bool
  isValid : Bool
  issuedAt : Option Int
  expiresAt : Option Int
  timeUntilExpiry : Option Int
  expiringSoon : Option Bool
deriving Repr, DecidableEq

/-- auth.AuthService.GetTokenStatus: read-only snapshot of the token
state; expiringSoon is `timeUntilExpiry < 5 minutes` with
timeUntilExpiry = ExpiresAt - now. -/
def AuthService.GetTokenStatus (a : AuthService) (now : Int) : TokenStatus :=
  match a.tokenCache with
  | none =>
    { hasToken := false, isValid := false, issuedAt := none,
      expiresAt := none, timeUntilExpiry := none, expiringSoon := none }
  | some tc =>
    { hasToken := true,
      isValid := a.isTokenValid now,
      issuedAt := some tc.IssuedAt,
      expiresAt := some tc.ExpiresAt,
      timeUntilExpiry := some (tc.ExpiresAt - now),
      expiringSoon := some (decide (tc.ExpiresAt - now < fiveMinutes)) }

/-- auth.AuthService.InvalidateToken: sets tokenCache to nil. -/
def AuthService.InvalidateToken (a : AuthService) : AuthService :=
  { a with tokenCache := none }

/-- Shape of every refreshToken exit: a failure leaves the store untouched
(only refreshingToken is reset), and the success exit returns a non-empty
token and replaces the store wholesale with that token, issue time `now`
and expiry `now + 23h`. -/
theorem refreshToken_cases (a : AuthService) (now : Int) (env : RefreshEnv) :
    ((∃ e, (a.refreshToken now env).1 = Except.error e) ∧
      (a.refreshToken now env).2.1 = { a with refreshingToken := false }) ∨
    (∃ tok, tok ≠ "" ∧ (a.refreshToken now env).1 = Except.ok tok ∧
      (a.refreshToken now env).2.1 =
        { a with tokenCache := some ⟨tok, now + twentyThreeHours, now⟩,
                 refreshingToken := false }) := by
  rcases env with ⟨m, nr, dr⟩
  cases m
  · exact Or.inl ⟨⟨.marshalFailed, rfl⟩, rfl⟩
  cases nr
  · exact Or.inl ⟨⟨.createRequestFailed, rfl⟩, rfl⟩
  rcases dr with _ | ⟨code, body⟩
  · exact Or.inl ⟨⟨.executeRequestFailed, rfl⟩, rfl⟩
  by_cases hc : code = 200
  · subst hc
    rcases body with _ | sr
    · exact Or.inl ⟨⟨.decodeFailed, rfl⟩, rfl⟩
    by_cases ht : sr.Token = ""
    · refine Or.inl ⟨⟨.emptyToken, ?_⟩, ?_⟩ <;>
        simp [AuthService.refreshToken, ht]
    · refine Or.inr ⟨sr.Token, ht, ?_, ?_⟩ <;>
        simp [AuthService.refreshToken, ht]
  · refine Or.inl ⟨⟨.badStatus code, ?_⟩, ?_⟩ <;>
      simp [AuthService.refreshToken, hc]

/-- refreshToken produces an error exactly when the environment denies one
of its steps (marshal, request creation, transport, status 200, decoding,
non-empty token). -/
theorem refreshToken_error_iff (a : AuthService) (now : Int) (env : RefreshEnv) :
    (∃ e, (a.refreshToken now env).1 = Except.error e) ↔ env.succeeds = false := by
  rcases env with ⟨m, nr, dr⟩
  cases m
  · simp [AuthService.refreshToken, RefreshEnv.succeeds]
  cases nr
  · simp [AuthService.refreshToken, RefreshEnv.succeeds]
  rcases dr with _ | ⟨code, body⟩
  · simp [AuthService.refreshToken, RefreshEnv.succeeds]
  by_cases hc : code = 200
  · subst hc
    rcases body with _ | sr
    · simp [AuthService.refreshToken, RefreshEnv.succeeds]
    by_cases ht : sr.Token = "" <;>
      simp [AuthService.refreshToken, RefreshEnv.succeeds, ht]
  · simp [AuthService.refreshToken, RefreshEnv.succeeds, hc]

/-- The authenticator (httpClient.Do) is invoked exactly once by
refreshToken whenever marshalling and request creation succeed. -/
theorem refreshToken_count (a : AuthService) (now : Int) (env : RefreshEnv)
    (hm : env.marshalOk = true) (hr : env.newRequestOk = true) :
    (a.refreshToken now env).2.2 = 1 := by
  rcases env with ⟨m, nr, dr⟩
  cases hm
  cases hr
  rcases dr with _ | ⟨code, body⟩
  · rfl
  by_cases hc : code = 200
  · subst hc
    rcases body with _ | sr
    · rfl
    by_cases ht : sr.Token = "" <;> simp [AuthService.refreshToken, ht]
  · simp [AuthService.refreshToken, hc]

/-- GetTokenStatus reads only the tokenCache field. -/
theorem getTokenStatus_congr (a b : AuthService) (h : a.tokenCache = b.tokenCache) (t : Int) :
    a.GetTokenStatus t = b.GetTokenStatus t := by
  unfold AuthService.GetTokenStatus AuthService.isTokenValid
  rw [h]

/-- GetValidToken either takes the fast path (valid cached token, no
refresh) or behaves exactly as refreshToken: in the serialized semantics
the in-flight branch re-checks the same (false) validity condition and
falls through to refreshToken. -/
theorem getValidToken_cases (a : AuthService) (now : Int) (env : RefreshEnv) :
    ((a.tokenCache.isSome && a.isTokenValid now) = true ∧
      a.GetValidToken now env = (Except.ok a.cachedToken, a, 0)) ∨
    a.GetValidToken now env = a.refreshToken now env := by
  by_cases h : (a.tokenCache.isSome && a.isTokenValid now) = true
  · exact Or.inl ⟨h, by simp [AuthService.GetValidToken, h]⟩
  · right
    cases hr : a.refreshingToken <;>
      simp [AuthService.GetValidToken, h, hr]

/-- The fast path itself: with a cached token inside the safety margin,
GetValidToken returns it, changes nothing and makes no network call. -/
theorem getValidToken_fast_path (a : AuthService) (tc : TokenCache) (now : Int)
    (env : RefreshEnv) (h : a.tokenCache = some tc)
    (hv : now < tc.ExpiresAt - fiveMinutes) :
    a.GetValidToken now env = (Except.ok tc.Token, a, 0) := by
  simp [AuthService.GetValidToken, AuthService.isTokenValid,
    AuthService.cachedToken, h, hv]

/-- C4: a stored token is valid exactly when now < ExpiresAt - 5 minutes;
a token expiring in 3 minutes reports isValid = false, expiringSoon = true,
and one expiring in 10 minutes reports isValid = true,
expiringSoon = false. -/
theorem token_safety_margin (a : AuthService) (tc : TokenCache) (now : Int) (tok : String) :
    (a.tokenCache = some tc →
      (a.isTokenValid now = true ↔ now < tc.ExpiresAt - fiveMinutes)) ∧
    (AuthService.GetTokenStatus ⟨some ⟨tok, now + 3 * 60, now⟩, false⟩ now).isValid = false ∧
    (AuthService.GetTokenStatus ⟨some ⟨tok, now + 3 * 60, now⟩, false⟩ now).expiringSoon = some true ∧
    (AuthService.GetTokenStatus ⟨some ⟨tok, now + 10 * 60, now⟩, false⟩ now).isValid = true ∧
    (AuthService.GetTokenStatus ⟨some ⟨tok, now + 10 * 60, now⟩, false⟩ now).expiringSoon = some false := by
  refine ⟨fun h => ?_, ?_, ?_, ?_, ?_⟩ <;>
    simp [AuthService.GetTokenStatus, AuthService.isTokenValid, fiveMinutes, *] <;>
    omega

/-- Closed witness for C4 at now = 0 with a token expiring at 400s. -/
theorem token_safety_margin_witness :
    (AuthService.isTokenValid ⟨some ⟨"t", 400, 0⟩, false⟩ 0 = true ↔ (0 : Int) < 400 - fiveMinutes) ∧
    (AuthService.GetTokenStatus ⟨some ⟨"t", 0 + 3 * 60, 0⟩, false⟩ 0).isValid = false :=
  ⟨(token_safety_margin ⟨some ⟨"t", 400, 0⟩, false⟩ ⟨"t", 400, 0⟩ 0 "t").1 rfl,
   (token_safety_margin ⟨some ⟨"t", 400, 0⟩, false⟩ ⟨"t", 400, 0⟩ 0 "t").2.1⟩

/-- C3: every failing refresh attempt (marshal, request creation,
transport, non-200 status, decode or empty token) returns the error to the
caller and leaves the tokenCache exactly as before, so a subsequent
GetTokenStatus reports the prior state unchanged. -/
theorem refresh_failure_preserves_store (a : AuthService) (now : Int) (env : RefreshEnv) :
    ((∃ e, (a.refreshToken now env).1 = Except.error e) ↔ env.succeeds = false) ∧
    (env.succeeds = false →
      (a.refreshToken now env).2.1.tokenCache = a.tokenCache ∧
      ∀ t, (a.refreshToken now env).2.1.GetTokenStatus t = a.GetTokenStatus t) := by
  refine ⟨refreshToken_error_iff a now env, fun hf => ?_⟩
  rcases refreshToken_cases a now env with ⟨_, hs⟩ | ⟨tok, htok, hok, _⟩
  · rw [hs]
    exact ⟨rfl, fun t => getTokenStatus_congr _ _ rfl t⟩
  · exact absurd ((refreshToken_error_iff a now env).2 hf) (by simp [hok])

/-- Closed witness for C3: a transport failure against a store holding a
token leaves the store and its status untouched. -/
theorem refresh_failure_preserves_store_witness :
    RefreshEnv.succeeds ⟨true, true, .transportError⟩ = false ∧
    (AuthService.refreshToken ⟨some ⟨"t", 400, 0⟩, false⟩ 7
        ⟨true, true, .transportError⟩).2.1.tokenCache = some ⟨"t", 400, 0⟩ :=
  ⟨by decide,
   ((refresh_failure_preserves_store ⟨some ⟨"t", 400, 0⟩, false⟩ 7
      ⟨true, true, .transportError⟩).2 (by decide)).1⟩

/-- Invariant of the credential store: whenever a token is present its
issue time does not exceed its expiry time. -/
def AuthService.storeWF (a : AuthService) : Prop :=
  ∀ tc, a.tokenCache = some tc → tc.IssuedAt ≤ tc.ExpiresAt

/-- C7: a successful refresh replaces the store wholesale with the new
token, issuedAt = refresh time and expiresAt = refresh time + 23 hours;
every operation preserves issuedAt ≤ expiresAt for a present token, and
with no token present validity is false. -/
theorem refresh_success_wholesale_and_invariant (a : AuthService) (now : Int) (env : RefreshEnv) :
    (∀ tok s n, a.refreshToken now env = (Except.ok tok, s, n) →
      s.tokenCache = some ⟨tok, now + twentyThreeHours, now⟩) ∧
    (a.storeWF →
      (a.refreshToken now env).2.1.storeWF ∧
      (a.GetValidToken now env).2.1.storeWF ∧
      a.InvalidateToken.storeWF) ∧
    (a.tokenCache = none → a.isTokenValid now = false) := by
  have hlife : (0 : Int) ≤ twentyThreeHours := by norm_num [twentyThreeHours]
  have hshape : ∀ tok s n, a.refreshToken now env = (Except.ok tok, s, n) →
      s.tokenCache = some ⟨tok, now + twentyThreeHours, now⟩ := by
    intro tok s n h
    rcases refreshToken_cases a now env with ⟨⟨e, he⟩, _⟩ | ⟨tok2, _, hok, hs⟩
    · rw [h] at he
      exact absurd he (by simp)
    · rw [h] at hok hs
      simp only at hok hs
      rw [hs]
      injection hok with h2
      rw [h2]
  have hrefresh : a.storeWF → (a.refreshToken now env).2.1.storeWF := by
    intro hwf
    rcases refreshToken_cases a now env with ⟨_, hs⟩ | ⟨tok, _, _, hs⟩ <;> rw [hs]
    · intro tc htc
      exact hwf tc htc
    · intro tc htc
      simp only [Option.some.injEq] at htc
      rw [← htc]
      simpa using by omega
  refine ⟨hshape, fun hwf => ⟨hrefresh hwf, ?_, ?_⟩, fun h => by
    simp [AuthService.isTokenValid, h]⟩
  · rcases getValidToken_cases a now env with ⟨_, hg⟩ | hg <;> rw [hg]
    · exact hwf
    · exact hrefresh hwf
  · intro tc htc
    simp [AuthService.InvalidateToken] at htc

/-- Closed witness for C7: a successful refresh at time 7 stores the token
with issuedAt 7 and expiresAt 7 + 23h. -/
theorem refresh_success_wholesale_and_invariant_witness :
    (⟨some ⟨"T1", 7 + twentyThreeHours, 7⟩, false⟩ : AuthService).tokenCache =
      some ⟨"T1", 7 + twentyThreeHours, 7⟩ :=
  (refresh_success_wholesale_and_invariant NewAuthService 7
      ⟨true, true, .response ⟨200, some ⟨"T1"⟩⟩⟩).1 "T1"
    ⟨some ⟨"T1", 7 + twentyThreeHours, 7⟩, false⟩ 1 rfl

/-- C6: InvalidateToken unconditionally clears the store to the empty
state, and the next GetValidToken then reaches the authenticator — one
network invocation — whatever the expiry of the token held before. -/
theorem invalidate_forces_fresh_refresh (a : AuthService) (t : Int) (env : RefreshEnv) :
    a.InvalidateToken.tokenCache = none ∧
    (env.marshalOk = true → env.newRequestOk = true →
      (a.InvalidateToken.GetValidToken t env).2.2 = 1) := by
  refine ⟨rfl, fun hm hr => ?_⟩
  rcases getValidToken_cases a.InvalidateToken t env with ⟨hcond, _⟩ | hg
  · simp [AuthService.InvalidateToken] at hcond
  · rw [hg]
    exact refreshToken_count _ t env hm hr

/-- Closed witness for C6: invalidating a store holding an unexpired token
and asking again makes exactly one authenticator call. -/
theorem invalidate_forces_fresh_refresh_witness :
    (AuthService.InvalidateToken ⟨some ⟨"t", 999999, 0⟩, false⟩).tokenCache = none ∧
    ((AuthService.InvalidateToken ⟨some ⟨"t", 999999, 0⟩, false⟩).GetValidToken 0
        ⟨true, true, .response ⟨200, some ⟨"T1"⟩⟩⟩).2.2 = 1 :=
  ⟨(invalidate_forces_fresh_refresh ⟨some ⟨"t", 999999, 0⟩, false⟩ 0
      ⟨true, true, .response ⟨200, some ⟨"T1"⟩⟩⟩).1,
   (invalidate_forces_fresh_refresh ⟨some ⟨"t", 999999, 0⟩, false⟩ 0
      ⟨true, true, .response ⟨200, some ⟨"T1"⟩⟩⟩).2 rfl rfl⟩

/-- Invariant: a present cached token is never the empty string. -/
def AuthService.tokenNonEmpty (a : AuthService) : Prop :=
  ∀ tc, a.tokenCache = some tc → tc.Token ≠ ""

/-- C10: starting from a fresh service the cache only ever holds non-empty
tokens — refreshToken rejects an empty upstream token with an error — so a
GetValidToken that returns without error returns a non-empty token, and
every operation preserves the invariant. -/
theorem getValidToken_success_token_nonempty (a : AuthService) (now : Int) (env : RefreshEnv) :
    NewAuthService.tokenNonEmpty ∧
    (a.tokenNonEmpty →
      (∀ tok s n, a.GetValidToken now env = (Except.ok tok, s, n) →
        tok ≠ "" ∧ s.tokenNonEmpty) ∧
      (a.refreshToken now env).2.1.tokenNonEmpty ∧
      a.InvalidateToken.tokenNonEmpty) := by
  have hrefresh : a.tokenNonEmpty → (a.refreshToken now env).2.1.tokenNonEmpty := by
    intro hwf
    rcases refreshToken_cases a now env with ⟨_, hs⟩ | ⟨tok, htok, _, hs⟩ <;> rw [hs]
    · intro tc htc
      exact hwf tc htc
    · intro tc htc
      simp only [Option.some.injEq] at htc
      rw [← htc]
      exact htok
  refine ⟨fun tc htc => by simp [NewAuthService] at htc, fun hwf => ⟨?_, hrefresh hwf, ?_⟩⟩
  · intro tok s n h
    rcases getValidToken_cases a now env with ⟨hcond, hg⟩ | hg
    · rw [h] at hg
      rcases Bool.and_eq_true_iff.1 hcond with ⟨hsome, _⟩
      rcases Option.isSome_iff_exists.1 hsome with ⟨tc, htc⟩
      have h1 : tok = a.cachedToken := by
        have h3 := congrArg Prod.fst hg
        simpa using h3
      have h2 : s = a := by
        have h3 := congrArg (fun p => p.2.1) hg
        simpa using h3
      constructor
      · rw [h1]
        have h4 : a.cachedToken = tc.Token := by
          simp [AuthService.cachedToken, htc]
        rw [h4]
        exact hwf tc htc
      · rw [h2]
        exact hwf
    · rw [hg] at h
      rcases refreshToken_cases a now env with ⟨⟨e, he⟩, _⟩ | ⟨tok2, htok2, hok, hs⟩
      · rw [h] at he
        exact absurd he (by simp)
      · rw [h] at hok hs
        simp only at hok hs
        injection hok with h2
        subst h2
        refine ⟨htok2, ?_⟩
        rw [hs]
        intro tc htc
        simp only [Option.some.injEq] at htc
        rw [← htc]
        exact htok2
  · intro tc htc
    simp [AuthService.InvalidateToken] at htc

/-- Closed witness for C10: a successful first call on a fresh service
returns the non-empty token "T1" and preserves the invariant trivially. -/
theorem getValidToken_success_token_nonempty_witness :
    ("T1" : String) ≠ "" :=
  (((getValidToken_success_token_nonempty NewAuthService 0
      ⟨true, true, .response ⟨200, some ⟨"T1"⟩⟩⟩).2
    (fun tc htc => by simp [NewAuthService] at htc)).1 "T1"
    ⟨some ⟨"T1", 0 + twentyThreeHours, 0⟩, false⟩ 1 rfl).1

/-
Concurrency.  refreshMutex is held for the whole body of GetValidToken,
including the refreshToken call (the deferred Unlock runs at return, after
refreshToken's own deferred handler has cleared refreshingToken), so N
concurrent callers execute as some serial order of N GetValidToken calls.
runCallers is that serialized execution; the polling wait loop is the one
place the lock is dropped mid-call and is modelled separately below.
-/

/-- Serialized execution of a list of GetValidToken calls (one per caller,
at the given time) against a shared service and a fixed refresh
environment; returns each caller's result, the final state, and the total
number of authenticator invocations. -/
def runCallers (env : RefreshEnv) : AuthService → List Int →
    List (Except RefreshError String) × AuthService × Nat
  | a, [] => ([], a, 0)
  | a, t :: ts =>
    let r := a.GetValidToken t env
    let rest := runCallers env r.2.1 ts
    (r.1 :: rest.1, rest.2.1, r.2.2 + rest.2.2)

/-- While the cached token stays inside the safety margin, every serialized
caller takes the fast path: no state change and zero authenticator
invocations. -/
theorem runCallers_valid_state (env : RefreshEnv) (a : AuthService) (tc : TokenCache)
    (h : a.tokenCache = some tc) (ts : List Int)
    (hv : ∀ t ∈ ts, t < tc.ExpiresAt - fiveMinutes) :
    runCallers env a ts = (ts.map fun _ => Except.ok tc.Token, a, 0) := by
  induction ts with
  | nil => simp [runCallers]
  | cons t ts ih =>
    have h1 := getValidToken_fast_path a tc t env h (hv t (by simp))
    simp [runCallers, h1, ih (fun x hx => hv x (by simp [hx]))]

/-- C1: N serialized callers (N ≥ 10, the order forced by refreshMutex)
hitting an empty store, with an authenticator that answers tok, make
exactly one authenticator invocation, and every caller receives tok with
no error — the first caller refreshes and all later callers, arriving
inside the 23h - 5min validity window, take the fast path. -/
theorem concurrent_callers_single_refresh (tok : String) (t0 : Int) (ts : List Int)
    (htok : tok ≠ "")
    (hN : 10 ≤ (t0 :: ts).length)
    (hts : ∀ t ∈ ts, t < t0 + twentyThreeHours - fiveMinutes) :
    (runCallers ⟨true, true, .response ⟨200, some ⟨tok⟩⟩⟩ NewAuthService (t0 :: ts)).2.2 = 1 ∧
    ∀ r ∈ (runCallers ⟨true, true, .response ⟨200, some ⟨tok⟩⟩⟩ NewAuthService (t0 :: ts)).1,
      r = Except.ok tok := by
  have hfirst : NewAuthService.GetValidToken t0 ⟨true, true, .response ⟨200, some ⟨tok⟩⟩⟩ =
      (Except.ok tok, ⟨some ⟨tok, t0 + twentyThreeHours, t0⟩, false⟩, 1) := by
    simp [AuthService.GetValidToken, AuthService.refreshToken, AuthService.isTokenValid,
      NewAuthService, htok]
  have hrest := runCallers_valid_state ⟨true, true, .response ⟨200, some ⟨tok⟩⟩⟩
    ⟨some ⟨tok, t0 + twentyThreeHours, t0⟩, false⟩ ⟨tok, t0 + twentyThreeHours, t0⟩
    rfl ts hts
  constructor
  · simp [runCallers, hfirst, hrest]
  · intro r hr
    simp only [runCallers, hfirst, hrest] at hr
    simp only [List.mem_cons, List.mem_map] at hr
    rcases hr with hr | ⟨x, _, hr⟩
    · exact hr
    · exact hr.symm

/-- Closed witness for C1: ten callers, all at time 0, against a fresh
service and a successful authenticator returning "T1". -/
theorem concurrent_callers_single_refresh_witness :
    (runCallers ⟨true, true, .response ⟨200, some ⟨"T1"⟩⟩⟩ NewAuthService
        (0 :: List.replicate 9 0)).2.2 = 1 ∧
    ∀ r ∈ (runCallers ⟨true, true, .response ⟨200, some ⟨"T1"⟩⟩⟩ NewAuthService
        (0 :: List.replicate 9 0)).1, r = Except.ok "T1" :=
  concurrent_callers_single_refresh "T1" 0 (List.replicate 9 0)
    (by decide) (by simp) (by simp [twentyThreeHours, fiveMinutes])

/-
The polling wait loop.  When GetValidToken finds refreshingToken set it
releases the mutex and runs `for a.refreshingToken { time.Sleep(100 * time.Millisecond) }`.
Each iteration observes the current value of the flag and — in principle —
could observe the caller's context; the source loop condition reads only
the flag.
-/

/-- One observation available to an iteration of the polling wait loop: the
refreshingToken value it reads and whether the caller's context is
cancelled at that moment. -/
structure PollObservation where
  refreshing : Bool
  ctxCancelled : Bool
deriving Repr, DecidableEq

/-- The polling wait loop of GetValidToken over a finite observation trace:
exits after k sleeps when the k-th observation shows the flag clear; none
when the flag is set at every observation in the trace — the loop is still
waiting.  The loop condition reads only the refreshing flag; the context,
though present in every observation, is never consulted. -/
def pollWaitIterations : List PollObservation → Option Nat
  | [] => none
  | o :: rest =>
    if o.refreshing then (pollWaitIterations rest).map (fun k => k + 1)
    else some 0

/-- Modelled from the spec: "if cancelled while a caller is in the
polling-wait branch, the wait must also respect cancellation and return an
error rather than hang" — this cancellation check is missing from the
source loop.  The spec-required wait exits normally (some true) on
observing the flag clear, exits with an error (some false) at an
observation where the context is cancelled, and keeps waiting (none)
otherwise. -/
def specCancellableWait : List PollObservation → Option Bool
  | [] => none
  | o :: rest =>
    if !o.refreshing then some true
    else if o.ctxCancelled then some false
    else specCancellableWait rest

/-- C5: refuted on the code — on a trace of five observations with the
refresh still in flight and the caller's context cancelled throughout, the
source loop is still waiting (it never consults the context), while the
spec-required wait stops with an error at the first observation. -/
theorem pollWait_ignores_cancellation :
    pollWaitIterations (List.replicate 5 ⟨true, true⟩) = none ∧
    specCancellableWait (List.replicate 5 ⟨true, true⟩) = some false := by
  exact ⟨rfl, rfl⟩
